import Mathlib

/-!
Verification development for the LicenSense / LNCD-Agent crawl-and-audit
pipeline.  The Python sources under `LNCD-Agent/` are shallowly embedded:
JSON values become the inductive `JValue`, Python dict operations become
association-list operations with Python's lookup/overwrite semantics,
`json.loads` becomes an executable recursive-descent parser over the JSON
fragment the program exchanges, the `re.search` call of the fine-filter
stage becomes an executable leftmost / non-greedy matcher for its one fixed
pattern, network calls become oracle parameters, and the flat-file artifact
layer becomes an explicit store `String → Option JValue`.
-/

/-! ## Characters and elementary text operations

String-library functions such as `String.startsWith` do not reduce inside
the kernel, so every text operation used by the embedding is defined
directly on `List Char`. -/

/-- The character `{` (code point 123), kept out of literals. -/
def lbrace : Char := Char.ofNat 123

/-- The character `}` (code point 125), kept out of literals. -/
def rbrace : Char := Char.ofNat 125

/-- The backquote character (code point 96), kept out of literals. -/
def backquote : Char := Char.ofNat 96

/-- ASCII whitespace as matched by Python's regex class `\s`:
space, tab, newline, vertical tab, form feed, carriage return. -/
def isPySpace (c : Char) : Bool :=
  c = ' ' || c = Char.ofNat 9 || c = Char.ofNat 10 ||
  c = Char.ofNat 11 || c = Char.ofNat 12 || c = Char.ofNat 13

/-- Try to consume the literal `lit` from the front of `cs`; return the
remainder on success.  This is the elementary step behind the embedding of
`str.startswith`, `str.replace` and regex literal parts. -/
def dropLit : List Char → List Char → Option (List Char)
  | [], cs => some cs
  | _ :: _, [] => none
  | p :: ps, c :: cs => if p = c then dropLit ps cs else none

/-- Whether character list `cs` begins with `ps`. -/
def charsHaveHead (ps cs : List Char) : Bool :=
  (dropLit ps cs).isSome

/-- Embedding of Python `s.startswith(p)`. -/
def str_startsWith (s p : String) : Bool :=
  charsHaveHead p.data s.data

/-- Whether `pat` occurs anywhere in `cs` (Python's `pat in s`). -/
def chars_contains (cs pat : List Char) : Bool :=
  match cs with
  | [] => charsHaveHead pat []
  | _ :: rest => charsHaveHead pat cs || chars_contains rest pat

/-- ASCII lower-casing of one character, as `str.lower` acts on the ASCII
range exercised by the crawler's rate-limit test. -/
def ascii_lower_char (c : Char) : Char :=
  if 65 ≤ c.toNat ∧ c.toNat ≤ 90 then Char.ofNat (c.toNat + 32) else c

/-- ASCII lower-casing of a character list. -/
def ascii_lower (cs : List Char) : List Char :=
  cs.map ascii_lower_char

/-- Embedding of Python `str.strip()` over the ASCII whitespace range. -/
def py_strip (s : String) : String :=
  String.mk (((s.data.dropWhile isPySpace).reverse.dropWhile isPySpace).reverse)

/-! ## JSON values and Python dict semantics -/

/-- JSON values as exchanged between the pipeline stages.  Numbers are
modelled as integers: the records the pipeline manipulates carry no
fractional numerics. -/
inductive JValue : Type where
  | null : JValue
  | bool : Bool → JValue
  | num  : Int → JValue
  | str  : String → JValue
  | arr  : List JValue → JValue
  | obj  : List (String × JValue) → JValue

instance : Inhabited JValue := ⟨JValue.null⟩

/-- A Python dict holding JSON data: an insertion-ordered association list
without duplicate keys (the parser and `dict_set` below maintain this). -/
abbrev JObj := List (String × JValue)

/-- Python truthiness restricted to JSON values: `None`, `False`, `0`,
`""`, `[]` and `\x7b\x7d` are falsy, everything else truthy. -/
def py_truthy : JValue → Bool
  | .null => false
  | .bool b => b
  | .num n => n != 0
  | .str s => !s.data.isEmpty
  | .arr xs => !xs.isEmpty
  | .obj kvs => !kvs.isEmpty

/-- Embedding of `d.get(k, default)` on a Python dict. -/
def dict_get (kvs : JObj) (k : String) (d : JValue) : JValue :=
  match kvs.find? (fun kv => kv.1 == k) with
  | some kv => kv.2
  | none => d

/-- Embedding of `d[k] = v` on a Python dict: overwrites in place when the
key exists (keeping its position), appends otherwise. -/
def dict_set (kvs : JObj) (k : String) (v : JValue) : JObj :=
  match kvs with
  | [] => [(k, v)]
  | (k', v') :: rest => if k' == k then (k, v) :: rest else (k', v') :: dict_set rest k v

/-- Embedding of Python `a or b`: `a` when truthy, else `b`. -/
def pyOr (a b : JValue) : JValue :=
  if py_truthy a then a else b

/-- Python `str()` of a JSON value, used where the sources interpolate a
record field into a URL f-string.  Composite values only feed abstract
oracle keys, so their rendering is schematic. -/
def py_str_of : JValue → String
  | .null => "None"
  | .bool true => "True"
  | .bool false => "False"
  | .num n => toString n
  | .str s => s
  | .arr _ => "[...]"
  | .obj _ => "..."

/-! ## A model of `json.loads`

Fueled recursive-descent parser for the JSON fragment the program
exchanges: objects, arrays, strings with the simple escapes, integers,
booleans and `null`.  `none` models `json.loads` raising.  Fractional
numbers and `\u` escapes, which none of the artifacts here carry, are
treated as parse failures. -/

/-- JSON inter-token whitespace accepted by `json.loads`. -/
def isJsonWs (c : Char) : Bool :=
  c = ' ' || c = Char.ofNat 9 || c = Char.ofNat 10 || c = Char.ofNat 13

/-- Skip inter-token whitespace. -/
def skipWs (cs : List Char) : List Char :=
  cs.dropWhile isJsonWs

/-- Parse the body of a JSON string after its opening quote; returns the
decoded characters and the input remaining after the closing quote. -/
def parseJStringChars : Nat → List Char → Option (List Char × List Char)
  | 0, _ => none
  | _ + 1, [] => none
  | fuel + 1, c :: cs =>
    if c = '"' then some ([], cs)
    else if c = '\\' then
      match cs with
      | [] => none
      | e :: cs' =>
        let dec : Option Char :=
          if e = '"' then some '"'
          else if e = '\\' then some '\\'
          else if e = '/' then some '/'
          else if e = 'n' then some (Char.ofNat 10)
          else if e = 't' then some (Char.ofNat 9)
          else if e = 'r' then some (Char.ofNat 13)
          else if e = 'b' then some (Char.ofNat 8)
          else if e = 'f' then some (Char.ofNat 12)
          else none
        match dec with
        | none => none
        | some d =>
          match parseJStringChars fuel cs' with
          | none => none
          | some p => some (d :: p.1, p.2)
    else
      match parseJStringChars fuel cs with
      | none => none
      | some p => some (c :: p.1, p.2)

/-- Take a maximal run of decimal digits, returned as digit values. -/
def takeDigits : List Char → (List Nat × List Char)
  | [] => ([], [])
  | c :: cs =>
    if 48 ≤ c.toNat ∧ c.toNat ≤ 57 then
      let r := takeDigits cs
      ((c.toNat - 48) :: r.1, r.2)
    else ([], c :: cs)

/-- Digit list to number. -/
def digitsToNat (ds : List Nat) : Nat :=
  ds.foldl (fun a d => a * 10 + d) 0

mutual

/-- Parse one JSON value; returns the value and the remaining input. -/
def parseJValue : Nat → List Char → Option (JValue × List Char)
  | 0, _ => none
  | fuel + 1, cs =>
    match skipWs cs with
    | [] => none
    | c :: rest =>
      if c = '"' then
        match parseJStringChars (rest.length + 1) rest with
        | none => none
        | some p => some (.str (String.mk p.1), p.2)
      else if c = lbrace then parseJMembers fuel (skipWs rest) []
      else if c = '[' then parseJItems fuel (skipWs rest) []
      else if c = 't' then
        match dropLit ['r', 'u', 'e'] rest with
        | none => none
        | some r => some (.bool true, r)
      else if c = 'f' then
        match dropLit ['a', 'l', 's', 'e'] rest with
        | none => none
        | some r => some (.bool false, r)
      else if c = 'n' then
        match dropLit ['u', 'l', 'l'] rest with
        | none => none
        | some r => some (.null, r)
      else if c = '-' then
        match takeDigits rest with
        | ([], _) => none
        | (ds, r) => some (.num (-(digitsToNat ds : Int)), r)
      else
        match takeDigits (c :: rest) with
        | ([], _) => none
        | (ds, r) => some (.num (digitsToNat ds), r)

/-- Parse object members after the opening brace (whitespace skipped);
`acc` holds the members seen so far, later duplicates overwriting earlier
ones exactly as `json.loads` builds its dict. -/
def parseJMembers : Nat → List Char → JObj → Option (JValue × List Char)
  | 0, _, _ => none
  | fuel + 1, cs, acc =>
    match cs with
    | [] => none
    | c :: rest =>
      if c = rbrace ∧ acc.isEmpty then some (.obj acc, rest)
      else if c = '"' then
        match parseJStringChars (rest.length + 1) rest with
        | none => none
        | some (key, cs1) =>
          match skipWs cs1 with
          | c1 :: cs2 =>
            if c1 = ':' then
              match parseJValue fuel (skipWs cs2) with
              | none => none
              | some (v, cs3) =>
                let acc' := dict_set acc (String.mk key) v
                match skipWs cs3 with
                | c2 :: cs4 =>
                  if c2 = ',' then parseJMembers fuel (skipWs cs4) acc'
                  else if c2 = rbrace then some (.obj acc', cs4)
                  else none
                | [] => none
            else none
          | [] => none
      else none

/-- Parse array items after the opening bracket (whitespace skipped);
`acc` holds the items seen so far, reversed. -/
def parseJItems : Nat → List Char → List JValue → Option (JValue × List Char)
  | 0, _, _ => none
  | fuel + 1, cs, acc =>
    match cs with
    | [] => none
    | c :: rest =>
      if c = ']' ∧ acc.isEmpty then some (.arr acc.reverse, rest)
      else
        match parseJValue fuel (c :: rest) with
        | none => none
        | some (v, cs1) =>
          match skipWs cs1 with
          | c2 :: cs2 =>
            if c2 = ',' then parseJItems fuel (skipWs cs2) (v :: acc)
            else if c2 = ']' then some (.arr (v :: acc).reverse, cs2)
            else none
          | [] => none

end

/-- Model of `json.loads`: parse one value and require only whitespace to
remain; `none` models the `JSONDecodeError` path. -/
def json_loads (s : String) : Option JValue :=
  match parseJValue (2 * s.data.length + 4) s.data with
  | some (v, rest) => if (skipWs rest).isEmpty then some v else none
  | none => none

/-! ## Model of the fenced-block regex

`fine_filter_github.extract_json_from_text` (lines 9-34) runs
`re.search` with the fixed pattern: the literal three backquotes and
`json`, then `\s*`, then the group — an opening brace, a non-greedy `.*?`
(DOTALL) and a closing brace — then `\s*` and three closing backquotes.
The matcher below reproduces `re.search` semantics for that pattern:
leftmost starting position first, and within it the earliest closing brace
whose tail matches. -/

/-- The opening literal of the pattern: three backquotes then `json`. -/
def fenceOpen : List Char := [backquote, backquote, backquote, 'j', 's', 'o', 'n']

/-- The closing literal of the pattern: three backquotes. -/
def fenceClose : List Char := [backquote, backquote, backquote]

/-- After a candidate closing brace: does `\s*` followed by the closing
fence match here? -/
def fenceFollows (cs : List Char) : Bool :=
  charsHaveHead fenceClose (cs.dropWhile isPySpace)

/-- Scan for the earliest closing brace whose tail matches (`.*?` is
non-greedy); `acc` holds the group content read so far, reversed. -/
def scanGroup (acc : List Char) : List Char → Option (List Char)
  | [] => none
  | c :: cs =>
    if c = rbrace ∧ fenceFollows cs then some (acc.reverse ++ [rbrace])
    else scanGroup (c :: acc) cs

/-- Try to match the whole pattern at the start of `cs`; returns the
captured group. -/
def matchFencedAt (cs : List Char) : Option (List Char) :=
  match dropLit fenceOpen cs with
  | none => none
  | some cs1 =>
    match cs1.dropWhile isPySpace with
    | c :: cs2 => if c = lbrace then scanGroup [lbrace] cs2 else none
    | [] => none

/-- Model of `re.search` for the pattern: first matching start position wins. -/
def searchFenced : List Char → Option (List Char)
  | [] => none
  | c :: cs =>
    match matchFencedAt (c :: cs) with
    | some g => some g
    | none => searchFenced cs

/-! ## The classification gate (`fine_filter_github.py`) -/

/-- Embedding of `extract_json_from_text` (fine_filter_github.py lines
9-34): extract the fenced block and parse it, else parse the whole text;
either parse failure yields the empty dict. -/
def extract_json_from_text (text : String) : JValue :=
  match searchFenced text.data with
  | some g =>
    match json_loads (String.mk g) with
    | some v => v
    | none => .obj []
  | none =>
    match json_loads text with
    | some v => v
    | none => .obj []

/-- Embedding of `check_downstream_usage` (fine_filter_github.py lines
36-96).  The external capability call is the argument: `Except.ok t` is a
response whose stripped text is parsed, `Except.error e` is the
transport-level exception caught at line 95. -/
def check_downstream_usage (capability : Except String String) : JValue :=
  match capability with
  | .ok output_text => extract_json_from_text (py_strip output_text)
  | .error e =>
      .obj [("is_downstream", .bool false),
            ("reason", .str ("Error calling OpenAI API: " ++ e))]

/-! ## Shared record plumbing -/

/-- A loaded JSON array is iterated as a list of dicts; a non-dict element
makes the per-record `.get` raise, modelled as `Except.error`. -/
def asObjList : List JValue → Except String (List JObj)
  | [] => .ok []
  | .obj kvs :: rest =>
    match asObjList rest with
    | .ok os => .ok (kvs :: os)
    | .error e => .error e
  | _ :: _ => .error "AttributeError"

/-- The artifact layer: file name to parsed JSON content, `none` when the
file is absent (or unreadable, which the sources catch with the same
handler). -/
def Store : Type := String → Option JValue

/-- Writing one artifact wholesale, as every stage's single `json.dump`
does. -/
def store_set (st : Store) (k : String) (v : JValue) : Store :=
  fun n => if n = k then some v else st n

/-- The store with no artifacts. -/
def empty_store : Store := fun _ => none

/-! ## Enrichment, code-host source (`data_process/process_github.py`) -/

/-- Embedding of the license projection at process_github.py line 58:
`repo.get("license", \x7b\x7d).get("name") if repo.get("license") else
None`.  A truthy non-dict license makes the inner `.get` raise. -/
def licenseField (repo : JObj) : Except String JValue :=
  let lv := dict_get repo "license" .null
  if py_truthy lv then
    match lv with
    | .obj kvs => .ok (dict_get kvs "name" .null)
    | _ => .error "AttributeError"
  else .ok .null

/-- Embedding of `process_repository` (process_github.py lines 51-65).
`readme` is the oracle for `fetch_repo_readme`, keyed by the record's
`full_name`; `none` covers the 404 / fatal-status / exhausted paths that
make the fetch return `None`.  A fetched falsy (empty) readme is stored as
`None` by the conditional expression at line 63. -/
def process_repository (readme : JValue → Option String) (repo : JObj) :
    Except String JObj :=
  match licenseField repo with
  | .error e => .error e
  | .ok lic =>
    let readme_content := readme (dict_get repo "full_name" (.str ""))
    .ok [("name", dict_get repo "name" .null),
         ("full_name", dict_get repo "full_name" .null),
         ("license", lic),
         ("topics", dict_get repo "topics" (.arr [])),
         ("readme",
           match readme_content with
           | some s => if py_truthy (.str s) then .str s else .null
           | none => .null)]

/-- Embedding of `process_repositories` (process_github.py lines 67-81):
a sequential loop appending one processed record per input record; a
record-level exception propagates (nothing in the loop catches it). -/
def process_repositories (readme : JValue → Option String) :
    List JObj → Except String (List JObj)
  | [] => .ok []
  | r :: rs =>
    match process_repository readme r with
    | .error e => .error e
    | .ok p =>
      match process_repositories readme rs with
      | .error e => .error e
      | .ok ps => .ok (p :: ps)

/-- Embedding of `clean_github_data` (process_github.py lines 91-108) over
the artifact store: a missing or unreadable input artifact is caught and
replaced by the empty list, after which the falsy check skips processing
and no output is written. -/
def clean_github_data (readme : JValue → Option String) (st : Store)
    (kw : String) : Except String Store :=
  let repos_data :=
    match st ("github_repos_" ++ kw ++ ".json") with
    | none => JValue.arr []
    | some v => v
  if py_truthy repos_data then
    match repos_data with
    | .arr items =>
      match asObjList items with
      | .error e => .error e
      | .ok repos =>
        match process_repositories readme repos with
        | .error e => .error e
        | .ok processed =>
          .ok (store_set st ("processed_github_repos_" ++ kw ++ ".json")
                 (.arr (processed.map JValue.obj)))
    | _ => .error "TypeError"
  else .ok st

/-! ## Enrichment, competition-catalog source
(`data_process/process_kaggle.py`)

`robust_request` (lines 36-63) retries on 429/503 and returns the parsed
body on 200, an empty dict on a JSON parse error and an empty dict on any
other status.  Its observable outcome per URL is therefore a dict, modelled
by the oracle `robust : String → JObj`; the all-fetches-fail run is the
oracle constantly returning the empty dict. -/

/-- Embedding of `get_kaggle_dataset_card` (lines 65-72). -/
def get_kaggle_dataset_card (robust : String → JObj) (dataset_ref : String) :
    JValue :=
  dict_get (robust ("https://www.kaggle.com/api/v1/datasets/view/" ++ dataset_ref))
    "description" (.str "")

/-- Name projection of `[file["name"] for file in files]` (line 82): a
non-dict entry or a missing `name` key raises. -/
def fileNames : List JValue → Except String (List JValue)
  | [] => .ok []
  | .obj kvs :: rest =>
    match kvs.find? (fun kv => kv.1 == "name") with
    | some kv =>
      match fileNames rest with
      | .ok ns => .ok (kv.2 :: ns)
      | .error e => .error e
    | none => .error "KeyError"
  | _ :: _ => .error "TypeError"

/-- Embedding of `get_kaggle_dataset_files` (lines 74-82).  A non-list
`datasetFiles` value fails inside the comprehension. -/
def get_kaggle_dataset_files (robust : String → JObj) (dataset_ref : String) :
    Except String (List JValue) :=
  match dict_get (robust ("https://www.kaggle.com/api/v1/datasets/view/" ++ dataset_ref))
      "datasetFiles" (.arr []) with
  | .arr files => fileNames files
  | _ => .error "TypeError"

/-- Embedding of `process_kaggle_dataset` (lines 84-102). -/
def process_kaggle_dataset (robust : String → JObj) (dataset : JObj) :
    Except String JObj :=
  let dataset_ref := dict_get dataset "ref" (.str "")
  let card := get_kaggle_dataset_card robust (py_str_of dataset_ref)
  match get_kaggle_dataset_files robust (py_str_of dataset_ref) with
  | .error e => .error e
  | .ok files =>
    .ok [("ref", dataset_ref),
         ("title", pyOr (dict_get dataset "titleNullable" .null)
                        (dict_get dataset "title" (.str ""))),
         ("subtitle", pyOr (dict_get dataset "subtitleNullable" .null)
                           (dict_get dataset "subtitle" (.str ""))),
         ("licenseName", pyOr (dict_get dataset "licenseNameNullable" .null)
                              (dict_get dataset "licenseName" (.str ""))),
         ("dataset_card", card),
         ("files", .arr files)]

/-- Lifting of `process_kaggle_dataset` to an arbitrary JSON element: a
non-dict element makes its `.get` raise inside the worker. -/
def process_kaggle_dataset_v (robust : String → JObj) : JValue → Except String JObj
  | .obj ds => process_kaggle_dataset robust ds
  | _ => .error "AttributeError"

/-- Embedding of the `as_completed` collection loop
(process_kaggle.py lines 116-124): futures are submitted in list order and
collected in completion order, given here as the explicit index list
`order` (a permutation of the indices under any real schedule); a future
whose computation raised is logged and skipped (lines 123-124). -/
def gather_kaggle_results (robust : String → JObj) (datasets : List JValue) :
    List Nat → List JObj
  | [] => []
  | i :: is =>
    match datasets[i]? with
    | none => gather_kaggle_results robust datasets is
    | some ds =>
      match process_kaggle_dataset_v robust ds with
      | .ok r => r :: gather_kaggle_results robust datasets is
      | .error _ => gather_kaggle_results robust datasets is

/-- Embedding of `process_kaggle_datasets_file` (lines 104-131) over the
artifact store.  `sched` is the thread-pool completion order as a function
of the loaded input (fixed across runs of a deterministic mock).  A failed
input load is caught and the function returns without writing; a loaded
value that is not a list fails when the submission loop iterates it. -/
def process_kaggle_datasets_file (robust : String → JObj)
    (sched : List JValue → List Nat) (st : Store) (inf outf : String) :
    Except String Store :=
  match st inf with
  | none => .ok st
  | some (.arr datasets) =>
    .ok (store_set st outf
          (.arr ((gather_kaggle_results robust datasets (sched datasets)).map JValue.obj)))
  | some _ => .error "TypeError"

/-! ## Enrichment, hub source (`data_process/process_huggingface.py`) -/

/-- One fueled step list for `tag.replace("license:", "")` (line 46):
Python `str.replace` removes every non-overlapping occurrence left to
right.  The fuel is the list length, enough since every step consumes at
least one character. -/
def drop_marks_go : Nat → List Char → List Char
  | 0, cs => cs
  | _ + 1, [] => []
  | fuel + 1, c :: cs =>
    match dropLit ("license:".data) (c :: cs) with
    | some rest => drop_marks_go fuel rest
    | none => c :: drop_marks_go fuel cs

/-- Embedding of `tag.replace("license:", "")`. -/
def drop_license_marks (cs : List Char) : List Char :=
  drop_marks_go cs.length cs

/-- Embedding of `extract_license` (process_huggingface.py lines 43-47):
first tag starting with the license marker wins; a non-string tag makes
`startswith` raise. -/
def extract_license : List JValue → Except String (Option JValue)
  | [] => .ok none
  | .str t :: rest =>
    if str_startsWith t "license:" then
      .ok (some (.str (String.mk (drop_license_marks t.data))))
    else extract_license rest
  | _ :: _ => .error "AttributeError"

/-- Embedding of the per-record body of `process_datasets`
(process_huggingface.py lines 80-95).  `card` is the oracle for
`fetch_dataset_card` (`none` when `safe_request` failed and the card is
recorded as `None`); `tree` is the oracle for
`fetch_recursive_file_paths`, whose remote-driven directory recursion
returns a flat path list, `[]` when the fetch failed. -/
def process_hf_dataset (card : JValue → Option String)
    (tree : JValue → List String) (entry : JObj) : Except String JObj :=
  let dataset_id := dict_get entry "id" .null
  let tagsv := dict_get entry "tags" (.arr [])
  match (match tagsv with
         | .arr ts => extract_license ts
         | _ => .error "TypeError") with
  | .error e => .error e
  | .ok license_name =>
    .ok [("id", dataset_id),
         ("license", match license_name with | some v => v | none => .null),
         ("dataset_card",
           match card dataset_id with
           | some s => .str s
           | none => .null),
         ("files", .arr ((tree dataset_id).map .str))]

/-- Embedding of `process_datasets` (lines 77-97): sequential loop, one
output record appended per input record. -/
def process_datasets (card : JValue → Option String)
    (tree : JValue → List String) : List JObj → Except String (List JObj)
  | [] => .ok []
  | en :: ens =>
    match process_hf_dataset card tree en with
    | .error e => .error e
    | .ok p =>
      match process_datasets card tree ens with
      | .error e => .error e
      | .ok ps => .ok (p :: ps)

/-! ## Classification stage artifact handling
(`fine_filter/fine_filter_github.py` lines 98-129) -/

/-- Embedding of `process_repos_file` over the artifact store.  `classify`
is the per-record outcome of `check_downstream_usage` under a
deterministic mocked capability.  A failed input load is caught and the
function returns without writing (lines 110-115); otherwise every record
gains a `downstream_usage` field and the whole list is dumped to the
output artifact. -/
def process_repos_file (classify : JObj → JValue) (st : Store)
    (inf outf : String) : Except String Store :=
  match st inf with
  | none => .ok st
  | some (.arr items) =>
    match asObjList items with
    | .error e => .error e
    | .ok repos =>
      .ok (store_set st outf
            (.arr ((repos.map
              (fun r => dict_set r "downstream_usage" (classify r))).map JValue.obj)))
  | some _ => .error "TypeError"

/-! ## Compliance merge (`compliance_check/compliance_github.py` and
`compliance_check/compliance_huggingface.py`)

`check_license_violation_with_openai` validates its parse (lines 113-116
of the github variant, 88-91 of the hub variant) and always returns a dict,
so the capability is the oracle `violation : JObj → JObj`. -/

/-- The guard read of `analyze_downstream_usage` (compliance_github.py
line 133): `dataset_record.get("downstream_usage", \x7b\x7d).get(...)`.
A non-dict `downstream_usage` value makes the chained `.get` raise. -/
def downstream_flag (r : JObj) : Except String JValue :=
  match dict_get r "downstream_usage" (.obj []) with
  | .obj d => .ok (dict_get d "is_downstream" (.bool false))
  | _ => .error "AttributeError"

/-- The guard as a boolean, defined where the flag read succeeds. -/
def is_downstream_rec (r : JObj) : Bool :=
  match downstream_flag r with
  | .ok f => py_truthy f
  | .error _ => false

/-- The record update of compliance_github.py lines 138-143: attach
`has_violation` and `violations` from the capability result and copy the
citation from the license profile when the record's own citation is
falsy. -/
def augment_record (violation : JObj → JObj) (original_info : JObj)
    (dataset_record : JObj) : JObj :=
  let violation_info := violation dataset_record
  let r1 := dict_set dataset_record "has_violation"
              (dict_get violation_info "has_violation" (.bool false))
  let r2 := dict_set r1 "violations"
              (dict_get violation_info "violations" (.arr []))
  if py_truthy (dict_get r2 "citation" .null) then r2
  else dict_set r2 "citation" (dict_get original_info "citation" (.str ""))

/-- Embedding of `analyze_downstream_usage` (compliance_github.py lines
123-145): records whose guard is falsy are skipped, the others are
augmented and appended in order. -/
def analyze_downstream_usage (violation : JObj → JObj) (original_info : JObj) :
    List JObj → Except String (List JObj)
  | [] => .ok []
  | r :: rs =>
    match downstream_flag r with
    | .error e => .error e
    | .ok flag =>
      if py_truthy flag then
        match analyze_downstream_usage violation original_info rs with
        | .error e => .error e
        | .ok out => .ok (augment_record violation original_info r :: out)
      else analyze_downstream_usage violation original_info rs

/-- The record update of compliance_huggingface.py lines 112-115 (no
citation step in the hub variant). -/
def augment_record_hf (violation : JObj → JObj) (dataset_record : JObj) : JObj :=
  let violation_info := violation dataset_record
  let r1 := dict_set dataset_record "has_violation"
              (dict_get violation_info "has_violation" (.bool false))
  dict_set r1 "violations" (dict_get violation_info "violations" (.arr []))

/-- Embedding of `analyze_downstream_usage` in compliance_huggingface.py
(lines 98-117). -/
def analyze_downstream_usage_hf (violation : JObj → JObj) :
    List JObj → Except String (List JObj)
  | [] => .ok []
  | r :: rs =>
    match downstream_flag r with
    | .error e => .error e
    | .ok flag =>
      if py_truthy flag then
        match analyze_downstream_usage_hf violation rs with
        | .error e => .error e
        | .ok out => .ok (augment_record_hf violation r :: out)
      else analyze_downstream_usage_hf violation rs

/-- Embedding of `check_github` (compliance_github.py lines 154-175) over
the artifact store.  Both input artifacts are opened with no exception
handler, so a missing artifact is `FileNotFoundError`; the license profile
artifact is a single JSON object and the classified artifact a JSON array
(spec section 6), other shapes failing when iterated or dereferenced. -/
def check_github (violation : JObj → JObj) (st : Store) (kw : String) :
    Except String Store :=
  match st ("extracted_dataset_info_with_license_analysis_" ++ kw ++ ".json") with
  | none => .error "FileNotFoundError"
  | some original_info =>
    match st ("final_processed_repos_" ++ kw ++ ".json") with
    | none => .error "FileNotFoundError"
    | some downstream =>
      match original_info, downstream with
      | .obj oi, .arr ds =>
        match asObjList ds with
        | .error e => .error e
        | .ok records =>
          match analyze_downstream_usage violation oi records with
          | .error e => .error e
          | .ok updated =>
            .ok (store_set st ("violations_github_" ++ kw ++ ".json")
                  (.arr (updated.map JValue.obj)))
      | _, _ => .error "TypeError"

/-! ## Code-host search (`coarse_search/crawl_github.py`) -/

/-- An HTTP response as observed by `search_repositories_with_date_range`:
status, raw body text, the parsed `X-RateLimit-Remaining` header (its
`int(... .get(..., 1))` read), and `response.json().get("items", [])`. -/
structure GHResponse : Type where
  status : Nat
  body : String
  remaining : Nat
  items : List JValue

/-- The retry test of crawl_github.py line 43: status 403 and the lowered
body containing the words rate limit. -/
def gh_is_rate_limited (r : GHResponse) : Bool :=
  decide (r.status = 403) && chars_contains (ascii_lower r.body.data) ("rate limit".data)

/-- Embedding of the paged loop of `search_repositories_with_date_range`
(crawl_github.py lines 32-58) over a stream of responses consumed one per
request.  A rate-limited response with `remaining = 0` sleeps and retries
the same page; a rate-limited one with `remaining ≠ 0` falls through both
branches to the break and is read for items; any other non-200 status
returns the accumulated repositories at once; an empty item page ends the
paging.  An exhausted stream ends the model run with the accumulator. -/
def gh_search_loop (max_pages : Nat) :
    List GHResponse → Nat → List JValue → List JValue
  | rs, page, acc =>
    if page > max_pages then acc
    else
      match rs with
      | [] => acc
      | r :: rest =>
        if gh_is_rate_limited r ∧ r.remaining = 0 then
          gh_search_loop max_pages rest page acc
        else if ¬ gh_is_rate_limited r ∧ r.status ≠ 200 then acc
        else
          if r.items.isEmpty then acc
          else gh_search_loop max_pages rest (page + 1) (acc ++ r.items)

/-- Embedding of `search_repositories_with_date_range` at its entry
(page 1, empty accumulator). -/
def search_repositories_with_date_range (rs : List GHResponse)
    (max_pages : Nat) : List JValue :=
  gh_search_loop max_pages rs 1 []

/-! ## Date-range partitioning (`crawl_github.partition_and_search`,
lines 60-83)

Dates are modelled as day numbers.  The loop advances `current` to
`min(current + interval_days, end_date)` until it reaches `end_date`; the
fuel `e - current` bounds the number of iterations whenever
`interval_days` is positive (with a non-positive interval the source loops
forever, which the fueled model truncates). -/

/-- The sub-interval list the loop steps through. -/
def partition_go (d : Nat) : Nat → Nat → Nat → List (Nat × Nat)
  | 0, _, _ => []
  | fuel + 1, current, e =>
    if current < e then
      (current, min (current + d) e) :: partition_go d fuel (min (current + d) e) e
    else []

/-- The sub-intervals visited for a window. -/
def partition_intervals (d start e : Nat) : List (Nat × Nat) :=
  partition_go d (e - start) start e

/-- The searched results as accumulated by the loop, one
`search_repositories_with_date_range` call per sub-interval; `search` is
that call as an oracle over the interval bounds. -/
def partition_search_go (search : Nat → Nat → List JValue) (d : Nat) :
    Nat → Nat → Nat → List JValue
  | 0, _, _ => []
  | fuel + 1, current, e =>
    if current < e then
      search current (min (current + d) e) ++
        partition_search_go search d fuel (min (current + d) e) e
    else []

/-- Embedding of `partition_and_search`. -/
def partition_and_search (search : Nat → Nat → List JValue) (d start e : Nat) :
    List JValue :=
  partition_search_go search d (e - start) start e

/-- Chained coverage of a window by consecutive intervals: the first
starts at the window start, each starts where the previous ended, each is
nonempty, and the last ends at the window end. -/
def intervalChain : Nat → Nat → List (Nat × Nat) → Prop
  | s, e, [] => s = e
  | s, e, (a, b) :: rest => a = s ∧ s < b ∧ intervalChain b e rest

/-! ## Hub search (`coarse_search/crawl_huggingface.py`) -/

/-- A response as observed by the hub's `search_datasets_by_keyword`:
status, the parsed `Retry-After` header when present, and the decoded
body list. -/
structure HFResponse : Type where
  status : Nat
  retryAfter : Option Nat
  items : List JValue

/-- The sleep computed at crawl_huggingface.py lines 43-44:
`min(int(headers.get("Retry-After", 5)) * (2 ** attempt), 60)`. -/
def hf_wait (retryAfter : Option Nat) (attempt : Nat) : Nat :=
  min ((retryAfter.getD 5) * 2 ^ attempt) 60

/-- Embedding of the bounded retry loop of `search_datasets_by_keyword`
(crawl_huggingface.py lines 34-53) over a response stream, recording the
sleep durations: 200 returns the items, 429 sleeps `hf_wait` and retries,
any other status breaks; an exhausted attempt budget (or stream) falls to
the failure return of the empty list. -/
def hf_search_go : List HFResponse → Nat → Nat → List Nat → (List Nat × List JValue)
  | _, _, 0, sleeps => (sleeps.reverse, [])
  | [], _, _ + 1, sleeps => (sleeps.reverse, [])
  | r :: rest, attempt, remaining + 1, sleeps =>
    if r.status = 200 then (sleeps.reverse, r.items)
    else if r.status = 429 then
      hf_search_go rest (attempt + 1) remaining (hf_wait r.retryAfter attempt :: sleeps)
    else (sleeps.reverse, [])

/-- Embedding of `search_datasets_by_keyword` at its entry; the result is
the pair of the sleep log and the returned dataset list. -/
def search_datasets_by_keyword (rs : List HFResponse) (max_retries : Nat) :
    List Nat × List JValue :=
  hf_search_go rs 0 max_retries []

/-! ## Competition-catalog search sleeps
(`coarse_search/crawl_kaggle.py` lines 48-59) -/

/-- The 429 sleep: `max(int(headers.get("Retry-After", 5)) * (2 ** attempt), 5)`. -/
def kaggle_wait_429 (retryAfter : Option Nat) (attempt : Nat) : Nat :=
  max ((retryAfter.getD 5) * 2 ^ attempt) 5

/-- The 503 sleep: `5 * (2 ** attempt)`. -/
def kaggle_wait_503 (attempt : Nat) : Nat :=
  5 * 2 ^ attempt

/-! ## Helper lemmas -/

theorem dict_get_set_self (kvs : JObj) (k : String) (v d : JValue) :
    dict_get (dict_set kvs k v) k d = v := by
  induction kvs with
  | nil => simp [dict_set, dict_get]
  | cons kv rest ih =>
    obtain ⟨k', v'⟩ := kv
    by_cases h : k' = k
    · simp [dict_set, dict_get, h]
    · simpa [dict_set, dict_get, h] using ih

theorem dict_get_set_ne (kvs : JObj) (k k' : String) (v d : JValue)
    (h : k' ≠ k) : dict_get (dict_set kvs k v) k' d = dict_get kvs k' d := by
  induction kvs with
  | nil => simp [dict_set, dict_get, Ne.symm h]
  | cons kv rest ih =>
    obtain ⟨k0, v0⟩ := kv
    by_cases h0 : k0 = k
    · subst h0
      simp [dict_set, dict_get, Ne.symm h]
    · by_cases h1 : k0 = k'
      · subst h1
        simp [dict_set, dict_get, h0]
      · simp only [dict_set, dict_get] at ih ⊢
        simp [h0, h1, ih]

theorem store_set_same (st : Store) (k : String) (v : JValue) :
    store_set st k v k = some v := by
  simp [store_set]

theorem store_set_other (st : Store) (k n : String) (v : JValue) (h : n ≠ k) :
    store_set st k v n = st n := by
  simp [store_set, h]

theorem store_set_idem (st : Store) (k : String) (v : JValue) :
    store_set (store_set st k v) k v = store_set st k v := by
  funext n
  by_cases h : n = k <;> simp [store_set, h]

theorem analyze_eq_filter_map (violation : JObj → JObj) (oi : JObj)
    (records : List JObj) (h : ∀ r ∈ records, ∃ f, downstream_flag r = .ok f) :
    analyze_downstream_usage violation oi records =
      .ok ((records.filter is_downstream_rec).map (augment_record violation oi)) := by
  induction records with
  | nil => simp [analyze_downstream_usage]
  | cons r rs ih =>
    obtain ⟨f, hf⟩ := h r (List.mem_cons_self r rs)
    have ihh := ih (fun x hx => h x (List.mem_cons_of_mem _ hx))
    by_cases ht : py_truthy f
    · simp [analyze_downstream_usage, hf, ht, ihh, List.filter_cons,
        is_downstream_rec]
    · simp [analyze_downstream_usage, hf, ht, ihh, List.filter_cons,
        is_downstream_rec]

theorem analyze_hf_eq_filter_map (violation : JObj → JObj)
    (records : List JObj) (h : ∀ r ∈ records, ∃ f, downstream_flag r = .ok f) :
    analyze_downstream_usage_hf violation records =
      .ok ((records.filter is_downstream_rec).map (augment_record_hf violation)) := by
  induction records with
  | nil => simp [analyze_downstream_usage_hf]
  | cons r rs ih =>
    obtain ⟨f, hf⟩ := h r (List.mem_cons_self r rs)
    have ihh := ih (fun x hx => h x (List.mem_cons_of_mem _ hx))
    by_cases ht : py_truthy f
    · simp [analyze_downstream_usage_hf, hf, ht, ihh, List.filter_cons,
        is_downstream_rec]
    · simp [analyze_downstream_usage_hf, hf, ht, ihh, List.filter_cons,
        is_downstream_rec]

theorem partition_go_chain (d : Nat) (hd : 0 < d) :
    ∀ fuel current e, current ≤ e → e - current ≤ fuel →
      intervalChain current e (partition_go d fuel current e) := by
  intro fuel
  induction fuel with
  | zero =>
    intro current e hce hf
    have : current = e := by omega
    subst this
    simp [partition_go, intervalChain]
  | succ fuel ih =>
    intro current e hce hf
    by_cases hlt : current < e
    · have hmle : min (current + d) e ≤ e := Nat.min_le_right _ _
      have hmgt : current < min (current + d) e := by
        apply Nat.lt_min.mpr
        exact ⟨by omega, hlt⟩
      simp only [partition_go, if_pos hlt, intervalChain]
      refine ⟨by trivial, hmgt, ?_⟩
      exact ih (min (current + d) e) e hmle (by omega)
    · have : current = e := by omega
      subst this
      simp [partition_go, intervalChain, hlt]

theorem partition_go_width (d : Nat) :
    ∀ fuel current e, ∀ p ∈ partition_go d fuel current e, p.2 - p.1 ≤ d := by
  intro fuel
  induction fuel with
  | zero => intro current e p hp; simp [partition_go] at hp
  | succ fuel ih =>
    intro current e p hp
    by_cases hlt : current < e
    · simp only [partition_go, if_pos hlt, List.mem_cons] at hp
      rcases hp with hp | hp
      · subst hp
        have := Nat.min_le_left (current + d) e
        simp only []
        omega
      · exact ih _ _ p hp
    · simp [partition_go, hlt] at hp

theorem partition_search_go_eq (search : Nat → Nat → List JValue) (d : Nat) :
    ∀ fuel current e,
      partition_search_go search d fuel current e =
        (partition_go d fuel current e).flatMap (fun p => search p.1 p.2) := by
  intro fuel
  induction fuel with
  | zero => intro current e; simp [partition_search_go, partition_go]
  | succ fuel ih =>
    intro current e
    by_cases hlt : current < e
    · simp [partition_search_go, partition_go, hlt, ih]
    · simp [partition_search_go, partition_go, hlt]

theorem hf_search_go_sleeps (h : Option Nat) :
    ∀ (rs : List HFResponse), (∀ r ∈ rs, r.status = 429 ∧ r.retryAfter = h) →
      ∀ n a sl, (hf_search_go rs a n sl).1 =
        sl.reverse ++ (List.range' a (min n rs.length)).map (hf_wait h) := by
  intro rs
  induction rs with
  | nil => intro _ n a sl; cases n <;> simp [hf_search_go]
  | cons r rest ih =>
    intro hall n a sl
    obtain ⟨hs, hra⟩ := hall r (List.mem_cons_self r rest)
    cases n with
    | zero => simp [hf_search_go]
    | succ n =>
      have h200 : r.status ≠ 200 := by omega
      have ihh := ih (fun x hx => hall x (List.mem_cons_of_mem _ hx)) n (a + 1)
        (hf_wait r.retryAfter a :: sl)
      simp only [hf_search_go]
      rw [if_neg h200, if_pos hs, ihh]
      have hmin : min (n + 1) ((r :: rest).length) = min n rest.length + 1 := by
        simp only [List.length_cons]
        omega
      rw [hmin, List.range'_succ]
      simp [hra]

theorem chain_le_map_range' (f : Nat → Nat) (hmono : ∀ i, f i ≤ f (i + 1)) :
    ∀ k a, List.Chain' (fun x y => x ≤ y) ((List.range' a k).map f) := by
  intro k
  induction k with
  | zero => intro a; simp
  | succ k ih =>
    intro a
    cases k with
    | zero => simp [List.range'_succ]
    | succ k =>
      have := ih (a + 1)
      simp only [List.range'_succ, List.map_cons] at this ⊢
      exact List.Chain'.cons (by simpa [List.range'_succ] using hmono a) this

/-- The raw listing shape for the code-host source: the `license` field,
when truthy, is an object (as the search API serves it). -/
def licenseShape (r : JObj) : Prop :=
  py_truthy (dict_get r "license" .null) = false ∨
    ∃ kvs, dict_get r "license" .null = .obj kvs

theorem licenseField_ok (r : JObj) (h : licenseShape r) :
    ∃ lic, licenseField r = .ok lic := by
  rcases h with h | ⟨kvs, h⟩
  · exact ⟨.null, by simp [licenseField, h]⟩
  · by_cases ht : py_truthy (dict_get r "license" .null)
    · rw [h] at ht
      exact ⟨dict_get kvs "name" .null, by simp [licenseField, h, ht]⟩
    · exact ⟨.null, by simp [licenseField, ht]⟩

theorem process_repository_ok (readme : JValue → Option String) (r : JObj)
    (h : licenseShape r) : ∃ out, process_repository readme r = .ok out := by
  obtain ⟨lic, hlf⟩ := licenseField_ok r h
  unfold process_repository
  rw [hlf]
  exact ⟨_, rfl⟩

theorem process_repositories_length (readme : JValue → Option String)
    (repos : List JObj) (h : ∀ r ∈ repos, licenseShape r) :
    ∃ out, process_repositories readme repos = .ok out ∧
      out.length = repos.length := by
  induction repos with
  | nil => exact ⟨[], rfl, rfl⟩
  | cons r rs ih =>
    obtain ⟨o, ho⟩ := process_repository_ok readme r (h r (List.mem_cons_self r rs))
    obtain ⟨os, hos, hlen⟩ := ih (fun x hx => h x (List.mem_cons_of_mem _ hx))
    exact ⟨o :: os, by simp [process_repositories, ho, hos], by simp [hlen]⟩

theorem gather_kaggle_results_length (robust : String → JObj)
    (datasets : List JValue) (order : List Nat)
    (hperm : order.Perm (List.range datasets.length))
    (hok : ∀ ds ∈ datasets, ∃ o, process_kaggle_dataset_v robust ds = .ok o) :
    (gather_kaggle_results robust datasets order).length = datasets.length := by
  have hmem : ∀ i ∈ order, i < datasets.length := by
    intro i hi
    have := hperm.mem_iff.mp hi
    simpa [List.mem_range] using this
  have hlen : (gather_kaggle_results robust datasets order).length = order.length := by
    clear hperm
    induction order with
    | nil => rfl
    | cons i is ih =>
      have hi : i < datasets.length := hmem i (List.mem_cons_self i is)
      have hget : datasets[i]? = some datasets[i] := List.getElem?_eq_getElem hi
      obtain ⟨o, ho⟩ := hok datasets[i] (datasets.getElem_mem hi)
      simp only [gather_kaggle_results, hget, ho, List.length_cons]
      exact congrArg (· + 1) (ih (fun x hx => hmem x (List.mem_cons_of_mem _ hx)))
  rw [hlen, hperm.length_eq, List.length_range]

theorem extract_license_ok (ts : List JValue)
    (h : ∀ t ∈ ts, ∃ s, t = .str s) : ∃ o, extract_license ts = .ok o := by
  induction ts with
  | nil => exact ⟨none, rfl⟩
  | cons t rest ih =>
    obtain ⟨s, hs⟩ := h t (List.mem_cons_self t rest)
    subst hs
    by_cases hst : str_startsWith s "license:"
    · refine ⟨some (.str (String.mk (drop_license_marks s.data))), ?_⟩
      simp [extract_license, hst]
    · obtain ⟨o, ho⟩ := ih (fun x hx => h x (List.mem_cons_of_mem _ hx))
      exact ⟨o, by simp [extract_license, hst, ho]⟩

/-- The raw listing shape for the hub source: the `tags` field is a list
of strings (as the hub API serves it), or absent. -/
def tagsShape (en : JObj) : Prop :=
  ∃ ts, dict_get en "tags" (.arr []) = .arr ts ∧ ∀ t ∈ ts, ∃ s, t = .str s

theorem process_hf_dataset_ok (card : JValue → Option String)
    (tree : JValue → List String) (en : JObj) (h : tagsShape en) :
    ∃ p, process_hf_dataset card tree en = .ok p := by
  obtain ⟨ts, hts, hstr⟩ := h
  obtain ⟨o, ho⟩ := extract_license_ok ts hstr
  refine ⟨[("id", dict_get en "id" .null),
          ("license", match o with | some v => v | none => .null),
          ("dataset_card",
            match card (dict_get en "id" .null) with
            | some s => .str s
            | none => .null),
          ("files", .arr ((tree (dict_get en "id" .null)).map .str))], ?_⟩
  simp only [process_hf_dataset, hts, ho]
  cases o <;> rfl

theorem process_datasets_length (card : JValue → Option String)
    (tree : JValue → List String) (entries : List JObj)
    (h : ∀ en ∈ entries, tagsShape en) :
    ∃ out, process_datasets card tree entries = .ok out ∧
      out.length = entries.length := by
  induction entries with
  | nil => exact ⟨[], rfl, rfl⟩
  | cons en ens ih =>
    obtain ⟨p, hp⟩ := process_hf_dataset_ok card tree en (h en (List.mem_cons_self en ens))
    obtain ⟨os, hos, hlen⟩ := ih (fun x hx => h x (List.mem_cons_of_mem _ hx))
    exact ⟨p :: os, by simp [process_datasets, hp, hos], by simp [hlen]⟩

theorem partition_go_bounds (d : Nat) (hd : 0 < d) :
    ∀ fuel current e, ∀ p ∈ partition_go d fuel current e,
      p.2 - p.1 ≤ d ∧ p.1 < p.2 := by
  intro fuel
  induction fuel with
  | zero => intro current e p hp; simp [partition_go] at hp
  | succ fuel ih =>
    intro current e p hp
    by_cases hlt : current < e
    · simp only [partition_go, if_pos hlt, List.mem_cons] at hp
      rcases hp with hp | hp
      · subst hp
        have h1 := Nat.min_le_left (current + d) e
        have h2 : current < min (current + d) e := Nat.lt_min.mpr ⟨by omega, hlt⟩
        exact ⟨by omega, h2⟩
      · exact ih _ _ p hp
    · simp [partition_go, hlt] at hp

/-! ## Claim theorems -/

/-- C9: for every start date strictly before the end date and every
positive interval length, the code-host adapter slices the window into
consecutive sub-intervals of at most `interval_days` days that jointly
cover it, issues one search per sub-interval, and returns the per-interval
results concatenated in chronological order of the sub-intervals. -/
theorem C9_date_range_partitioning (search : Nat → Nat → List JValue)
    (d start e : Nat) (hd : 0 < d) (hse : start < e) :
    partition_and_search search d start e =
      (partition_intervals d start e).flatMap (fun p => search p.1 p.2) ∧
    intervalChain start e (partition_intervals d start e) ∧
    (∀ p ∈ partition_intervals d start e, p.2 - p.1 ≤ d ∧ p.1 < p.2) := by
  refine ⟨?_, ?_, ?_⟩
  · exact partition_search_go_eq search d (e - start) start e
  · exact partition_go_chain d hd (e - start) start e hse.le (Nat.le_refl _)
  · exact partition_go_bounds d hd (e - start) start e

/-- C9 witness: a 75-day window with 30-day intervals is split into the
three chained sub-intervals and searched per sub-interval. -/
theorem C9_date_range_partitioning_witness :
    0 < 30 ∧ 0 < 75 ∧
    (partition_and_search (fun a b => [.num (a : Int), .num (b : Int)]) 30 0 75 =
      (partition_intervals 30 0 75).flatMap
        (fun p => [.num (p.1 : Int), .num (p.2 : Int)]) ∧
     intervalChain 0 75 (partition_intervals 30 0 75) ∧
     (∀ p ∈ partition_intervals 30 0 75, p.2 - p.1 ≤ 30 ∧ p.1 < p.2)) :=
  ⟨by decide, by decide,
    C9_date_range_partitioning (fun a b => [.num (a : Int), .num (b : Int)])
      30 0 75 (by decide) (by decide)⟩

/-- C8 counterexample: two successive retryable 429 responses whose retry
hints differ (100 then 1) make the hub adapter sleep 60 seconds and then 2
seconds — the sleep sequence decreases, so the claim fails for sequences
whose per-response hints vary. -/
theorem C8_backoff_cex :
    (search_datasets_by_keyword
        [⟨429, some 100, []⟩, ⟨429, some 1, []⟩, ⟨500, none, []⟩] 5).1 = [60, 2] ∧
    ¬ List.Chain' (fun x y => x ≤ y)
        (search_datasets_by_keyword
          [⟨429, some 100, []⟩, ⟨429, some 1, []⟩, ⟨500, none, []⟩] 5).1 := by
  refine ⟨rfl, ?_⟩
  rw [show (search_datasets_by_keyword
        [⟨429, some 100, []⟩, ⟨429, some 1, []⟩, ⟨500, none, []⟩] 5).1 = [60, 2]
      from rfl]
  intro hch
  have := List.chain'_cons.mp hch
  omega

/-- C8 amended: when every 429 response of the sequence carries the same
retry hint (or none, employing the fixed default), the computed sleep
durations are non-decreasing in the attempt number, capped at the 60-second
hub ceiling; the competition-catalog 429 and 503 sleeps are likewise
non-decreasing (that client has no ceiling). -/
theorem C8_backoff_monotonicity_amended (h : Option Nat) (a : Nat)
    (rs : List HFResponse)
    (hall : ∀ r ∈ rs, r.status = 429 ∧ r.retryAfter = h) (n : Nat) :
    hf_wait h a ≤ hf_wait h (a + 1) ∧ hf_wait h a ≤ 60 ∧
    kaggle_wait_429 h a ≤ kaggle_wait_429 h (a + 1) ∧
    kaggle_wait_503 a ≤ kaggle_wait_503 (a + 1) ∧
    (search_datasets_by_keyword rs n).1 =
      (List.range' 0 (min n rs.length)).map (hf_wait h) ∧
    List.Chain' (fun x y => x ≤ y) (search_datasets_by_keyword rs n).1 := by
  have hpow : ∀ b : Nat, b * 2 ^ a ≤ b * 2 ^ (a + 1) := by
    intro b
    have : (2 : Nat) ^ a ≤ 2 ^ (a + 1) :=
      Nat.pow_le_pow_right (by omega) (by omega)
    exact Nat.mul_le_mul_left b this
  have hmono : ∀ i, hf_wait h i ≤ hf_wait h (i + 1) := by
    intro i
    have : (h.getD 5) * 2 ^ i ≤ (h.getD 5) * 2 ^ (i + 1) := by
      have : (2 : Nat) ^ i ≤ 2 ^ (i + 1) :=
        Nat.pow_le_pow_right (by omega) (by omega)
      exact Nat.mul_le_mul_left _ this
    exact min_le_min this (Nat.le_refl 60)
  have hlog : (search_datasets_by_keyword rs n).1 =
      (List.range' 0 (min n rs.length)).map (hf_wait h) := by
    have := hf_search_go_sleeps h rs hall n 0 []
    simpa [search_datasets_by_keyword] using this
  refine ⟨hmono a, Nat.min_le_right _ _, ?_, ?_, hlog, ?_⟩
  · exact max_le_max (hpow _) (Nat.le_refl 5)
  · exact hpow 5
  · rw [hlog]
    exact chain_le_map_range' (hf_wait h) hmono _ _

/-- C8 amended witness: a concrete all-429 constant-hint stream. -/
theorem C8_backoff_monotonicity_amended_witness :
    hf_wait (some 7) 3 ≤ hf_wait (some 7) 4 ∧ hf_wait (some 7) 3 ≤ 60 ∧
    kaggle_wait_429 (some 7) 3 ≤ kaggle_wait_429 (some 7) 4 ∧
    kaggle_wait_503 3 ≤ kaggle_wait_503 4 ∧
    (search_datasets_by_keyword [⟨429, some 7, []⟩, ⟨429, some 7, []⟩] 5).1 =
      (List.range' 0 (min 5 2)).map (hf_wait (some 7)) ∧
    List.Chain' (fun x y => x ≤ y)
      (search_datasets_by_keyword [⟨429, some 7, []⟩, ⟨429, some 7, []⟩] 5).1 :=
  C8_backoff_monotonicity_amended (some 7) 3
    [⟨429, some 7, []⟩, ⟨429, some 7, []⟩]
    (by
      intro r hr
      rcases List.mem_cons.mp hr with h | hr
      · subst h; exact ⟨rfl, rfl⟩
      · rcases List.mem_cons.mp hr with h | hr
        · subst h; exact ⟨rfl, rfl⟩
        · cases hr)
    5

/-- C6: a response whose status is non-2xx and not in the retryable
classes is fatal for the request: the code-host search returns the
repositories accumulated so far with no retry, and the hub search returns
the empty list with no retry. -/
theorem C6_fatal_status_short_circuit (r : GHResponse) (rest : List GHResponse)
    (page max_pages : Nat) (acc : List JValue)
    (hr : HFResponse) (hrest : List HFResponse) (att rem : Nat) (sl : List Nat)
    (hp : page ≤ max_pages) (hs : r.status ≠ 200)
    (hrl : gh_is_rate_limited r = false)
    (h200 : hr.status ≠ 200) (h429 : hr.status ≠ 429) :
    gh_search_loop max_pages (r :: rest) page acc = acc ∧
    hf_search_go (hr :: hrest) att (rem + 1) sl = (sl.reverse, []) ∧
    (search_datasets_by_keyword (hr :: hrest) (rem + 1)).2 = [] := by
  refine ⟨?_, ?_, ?_⟩
  · simp only [gh_search_loop]
    rw [if_neg (by omega)]
    rw [if_neg (by simp [hrl])]
    rw [if_pos ⟨by simp [hrl], hs⟩]
  · simp [hf_search_go, h200, h429]
  · simp [search_datasets_by_keyword, hf_search_go, h200, h429]

/-- C6 witness: a 404 on the code-host search returns the two repositories
already accumulated; a 500 on the hub search returns the empty list. -/
theorem C6_fatal_status_short_circuit_witness :
    gh_search_loop 10 [⟨404, "Not Found", 1, []⟩, ⟨200, "", 1, [.num 9]⟩] 2
        [.num 1, .num 2] = [.num 1, .num 2] ∧
    hf_search_go [⟨500, none, [.num 3]⟩, ⟨200, none, [.num 3]⟩] 0 (4 + 1) [] =
      (List.reverse [], []) ∧
    (search_datasets_by_keyword [⟨500, none, [.num 3]⟩, ⟨200, none, [.num 3]⟩]
        (4 + 1)).2 = [] :=
  C6_fatal_status_short_circuit
    ⟨404, "Not Found", 1, []⟩ [⟨200, "", 1, [.num 9]⟩] 2 10 [.num 1, .num 2]
    ⟨500, none, [.num 3]⟩ [⟨200, none, [.num 3]⟩] 0 4 []
    (by decide) (by decide) (by rfl) (by decide) (by decide)

/-- C4 counterexample: with no artifacts on disk, the compliance stage
raises (`FileNotFoundError` from its unguarded `open`) instead of logging
and proceeding with an empty working set. -/
theorem C4_missing_artifact_cex :
    check_github (fun _ => []) empty_store "BRSET" = .error "FileNotFoundError" :=
  rfl

/-- C4 amended: the enrichment and classification stages catch a missing
input artifact, log it, and proceed with an empty working set without
raising (writing no output); the compliance-merge stage opens its input
artifacts unguarded and raises when one is absent. -/
theorem C4_missing_artifact_amended
    (readme : JValue → Option String) (classify : JObj → JValue)
    (robust : String → JObj) (sched : List JValue → List Nat)
    (violation : JObj → JObj) (st : Store) (kw inf outf : String)
    (h1 : st ("github_repos_" ++ kw ++ ".json") = none)
    (h2 : st inf = none)
    (h3 : st ("extracted_dataset_info_with_license_analysis_" ++ kw ++ ".json") = none) :
    clean_github_data readme st kw = .ok st ∧
    process_repos_file classify st inf outf = .ok st ∧
    process_kaggle_datasets_file robust sched st inf outf = .ok st ∧
    check_github violation st kw = .error "FileNotFoundError" := by
  refine ⟨?_, ?_, ?_, ?_⟩
  · simp [clean_github_data, h1, py_truthy]
  · simp [process_repos_file, h2]
  · simp [process_kaggle_datasets_file, h2]
  · simp [check_github, h3]

/-- C4 amended witness: the empty store. -/
theorem C4_missing_artifact_amended_witness :
    clean_github_data (fun _ => none) empty_store "BRSET" = .ok empty_store ∧
    process_repos_file (fun _ => .obj []) empty_store "processed_github_repos_BRSET.json"
        "final_processed_repos_BRSET.json" = .ok empty_store ∧
    process_kaggle_datasets_file (fun _ => []) (fun l => List.range l.length)
        empty_store "processed_github_repos_BRSET.json"
        "final_processed_repos_BRSET.json" = .ok empty_store ∧
    check_github (fun _ => []) empty_store "BRSET" = .error "FileNotFoundError" :=
  C4_missing_artifact_amended (fun _ => none) (fun _ => .obj []) (fun _ => [])
    (fun l => List.range l.length) (fun _ => []) empty_store "BRSET"
    "processed_github_repos_BRSET.json" "final_processed_repos_BRSET.json"
    rfl rfl rfl

/-- C10: a classified record whose `downstream_usage` field is missing, is
the empty object, or lacks the `is_downstream` key is treated as
non-downstream by the compliance merge: the defaulted lookups yield the
false verdict without raising, and the record is excluded from the
violation output. -/
theorem C10_defaulted_downstream_guard (r : JObj) (violation : JObj → JObj)
    (oi : JObj) (rs : List JObj)
    (h : r.find? (fun kv => kv.1 == "downstream_usage") = none ∨
      ∃ kvs, dict_get r "downstream_usage" (.obj []) = .obj kvs ∧
        kvs.find? (fun kv => kv.1 == "is_downstream") = none) :
    downstream_flag r = .ok (.bool false) ∧ is_downstream_rec r = false ∧
    analyze_downstream_usage violation oi (r :: rs) =
      analyze_downstream_usage violation oi rs ∧
    analyze_downstream_usage_hf violation (r :: rs) =
      analyze_downstream_usage_hf violation rs := by
  have hflag : downstream_flag r = .ok (.bool false) := by
    rcases h with h | ⟨kvs, hk, hnone⟩
    · have hdu : dict_get r "downstream_usage" (.obj []) = .obj [] := by
        unfold dict_get
        rw [h]
      unfold downstream_flag
      rw [hdu]
      rfl
    · unfold downstream_flag
      rw [hk]
      show Except.ok (dict_get kvs "is_downstream" (.bool false)) = Except.ok (.bool false)
      unfold dict_get
      rw [hnone]
  refine ⟨hflag, ?_, ?_, ?_⟩
  · simp [is_downstream_rec, hflag, py_truthy]
  · simp [analyze_downstream_usage, hflag, py_truthy]
  · simp [analyze_downstream_usage_hf, hflag, py_truthy]

/-- C10 witness: a record with an empty `downstream_usage` object (the
shape a failed classification parse produces) is skipped without error. -/
theorem C10_defaulted_downstream_guard_witness :
    downstream_flag [("name", JValue.str "repo"), ("downstream_usage", JValue.obj [])] =
      .ok (.bool false) ∧
    is_downstream_rec [("name", JValue.str "repo"), ("downstream_usage", JValue.obj [])] =
      false ∧
    analyze_downstream_usage (fun _ => []) []
        ([("name", JValue.str "repo"), ("downstream_usage", JValue.obj [])] :: []) =
      analyze_downstream_usage (fun _ => []) [] [] ∧
    analyze_downstream_usage_hf (fun _ => [])
        ([("name", JValue.str "repo"), ("downstream_usage", JValue.obj [])] :: []) =
      analyze_downstream_usage_hf (fun _ => []) [] :=
  C10_defaulted_downstream_guard
    [("name", JValue.str "repo"), ("downstream_usage", JValue.obj [])]
    (fun _ => []) [] [] (Or.inr ⟨[], rfl, rfl⟩)

/-- The default verdict the claim says the parser returns on a parse
failure: an object carrying `is_downstream = false` and a `reason`
string. -/
def claimed_default_verdict (v : JValue) : Prop :=
  ∃ kvs, v = .obj kvs ∧ dict_get kvs "is_downstream" .null = .bool false ∧
    ∃ s, dict_get kvs "reason" .null = .str s

/-- C2 counterexample: on garbage text the parser returns the empty dict,
which is not the documented default verdict — it carries neither an
`is_downstream` nor a `reason` field. -/
theorem C2_safe_default_cex :
    extract_json_from_text "this is not json" = JValue.obj [] ∧
    ¬ claimed_default_verdict (extract_json_from_text "this is not json") := by
  refine ⟨rfl, ?_⟩
  rw [show extract_json_from_text "this is not json" = JValue.obj [] from rfl]
  rintro ⟨kvs, hk, hfalse, -⟩
  cases hk
  cases hfalse

/-- C2 amended: the parser prefers the fenced block — returning its parse
when it succeeds and the empty dict when it fails (no fall back to the
whole text) — parses the whole text only when no fenced block matches,
returns the empty dict (not a reasoned verdict) on any parse failure, and
never raises; the reasoned `is_downstream = false` default arises only
when the capability call itself raises, in `check_downstream_usage`. -/
theorem C2_safe_default_parsing_amended (text g : String) (v : JValue)
    (e : String) :
    (searchFenced text.data = some g.data → json_loads g = some v →
      extract_json_from_text text = v) ∧
    (searchFenced text.data = some g.data → json_loads g = none →
      extract_json_from_text text = .obj []) ∧
    (searchFenced text.data = none → json_loads text = some v →
      extract_json_from_text text = v) ∧
    (searchFenced text.data = none → json_loads text = none →
      extract_json_from_text text = .obj []) ∧
    check_downstream_usage (.error e) =
      .obj [("is_downstream", .bool false),
            ("reason", .str ("Error calling OpenAI API: " ++ e))] ∧
    check_downstream_usage (.ok text) = extract_json_from_text (py_strip text) := by
  have hmk : String.mk g.data = g := rfl
  refine ⟨?_, ?_, ?_, ?_, rfl, rfl⟩
  · intro h1 h2
    unfold extract_json_from_text
    rw [h1]
    show (match json_loads (String.mk g.data) with
          | some w => w
          | none => JValue.obj []) = v
    rw [hmk, h2]
  · intro h1 h2
    unfold extract_json_from_text
    rw [h1]
    show (match json_loads (String.mk g.data) with
          | some w => w
          | none => JValue.obj []) = JValue.obj []
    rw [hmk, h2]
  · intro h1 h2
    unfold extract_json_from_text
    rw [h1]
    show (match json_loads text with
          | some w => w
          | none => JValue.obj []) = v
    rw [h2]
  · intro h1 h2
    unfold extract_json_from_text
    rw [h1]
    show (match json_loads text with
          | some w => w
          | none => JValue.obj []) = JValue.obj []
    rw [h2]

/-- C2 amended witness: a fenced block yields its parsed object, bare JSON
yields its parsed object, garbage yields the empty dict, and a failed
capability call yields the reasoned default verdict. -/
theorem C2_safe_default_parsing_amended_witness :
    extract_json_from_text
        "verdict: ```json \x7b\"is_downstream\": true, \"reason\": \"uses it\"\x7d ``` done" =
      .obj [("is_downstream", .bool true), ("reason", .str "uses it")] ∧
    extract_json_from_text "\x7b\"is_downstream\": false\x7d" =
      .obj [("is_downstream", .bool false)] ∧
    extract_json_from_text "this is not json" = .obj [] ∧
    check_downstream_usage (.error "timeout") =
      .obj [("is_downstream", .bool false),
            ("reason", .str ("Error calling OpenAI API: " ++ "timeout"))] :=
  ⟨(C2_safe_default_parsing_amended
      "verdict: ```json \x7b\"is_downstream\": true, \"reason\": \"uses it\"\x7d ``` done"
      "\x7b\"is_downstream\": true, \"reason\": \"uses it\"\x7d"
      (.obj [("is_downstream", .bool true), ("reason", .str "uses it")])
      "timeout").1 rfl rfl,
   (C2_safe_default_parsing_amended "\x7b\"is_downstream\": false\x7d" ""
      (.obj [("is_downstream", .bool false)]) "timeout").2.2.1 rfl rfl,
   (C2_safe_default_parsing_amended "this is not json" "" (.obj [])
      "timeout").2.2.2.1 rfl rfl,
   (C2_safe_default_parsing_amended "" "" .null "timeout").2.2.2.2.1⟩

/-- C3: the compliance merge keeps exactly the records whose downstream
verdict is truthy, in their original relative order, augmenting each with
violation data; the count equals the number of downstream-marked records;
and the stage writes only the violation artifact, leaving every other
artifact untouched. -/
theorem C3_downstream_filtering (violation : JObj → JObj) (oi : JObj)
    (records : List JObj) (kw : String)
    (h : ∀ r ∈ records, ∃ f, downstream_flag r = .ok f) :
    analyze_downstream_usage violation oi records =
      .ok ((records.filter is_downstream_rec).map (augment_record violation oi)) ∧
    analyze_downstream_usage_hf violation records =
      .ok ((records.filter is_downstream_rec).map (augment_record_hf violation)) ∧
    ((records.filter is_downstream_rec).map (augment_record violation oi)).length =
      records.countP is_downstream_rec ∧
    ∀ st st', check_github violation st kw = .ok st' →
      ∀ name, name ≠ "violations_github_" ++ kw ++ ".json" → st' name = st name := by
  refine ⟨analyze_eq_filter_map violation oi records h,
          analyze_hf_eq_filter_map violation records h, ?_, ?_⟩
  · rw [List.length_map, List.countP_eq_length_filter]
  · intro st st' hrun name hn
    unfold check_github at hrun
    repeat' split at hrun
    all_goals cases hrun
    all_goals exact store_set_other st _ name _ hn

/-- C3 witness: of two classified records, only the downstream-marked one
reaches the violation output, augmented; the count is one. -/
theorem C3_downstream_filtering_witness :
    analyze_downstream_usage (fun _ => [("has_violation", JValue.bool true)])
        [("citation", JValue.str "CITE")]
        [[("name", JValue.str "a"),
          ("downstream_usage", JValue.obj [("is_downstream", JValue.bool true)])],
         [("name", JValue.str "b"),
          ("downstream_usage", JValue.obj [("is_downstream", JValue.bool false)])]] =
      .ok (([[("name", JValue.str "a"),
          ("downstream_usage", JValue.obj [("is_downstream", JValue.bool true)])],
         [("name", JValue.str "b"),
          ("downstream_usage", JValue.obj [("is_downstream", JValue.bool false)])]].filter
            is_downstream_rec).map
          (augment_record (fun _ => [("has_violation", JValue.bool true)])
            [("citation", JValue.str "CITE")])) ∧
    analyze_downstream_usage_hf (fun _ => [("has_violation", JValue.bool true)])
        [[("name", JValue.str "a"),
          ("downstream_usage", JValue.obj [("is_downstream", JValue.bool true)])],
         [("name", JValue.str "b"),
          ("downstream_usage", JValue.obj [("is_downstream", JValue.bool false)])]] =
      .ok (([[("name", JValue.str "a"),
          ("downstream_usage", JValue.obj [("is_downstream", JValue.bool true)])],
         [("name", JValue.str "b"),
          ("downstream_usage", JValue.obj [("is_downstream", JValue.bool false)])]].filter
            is_downstream_rec).map
          (augment_record_hf (fun _ => [("has_violation", JValue.bool true)]))) ∧
    (([[("name", JValue.str "a"),
          ("downstream_usage", JValue.obj [("is_downstream", JValue.bool true)])],
         [("name", JValue.str "b"),
          ("downstream_usage", JValue.obj [("is_downstream", JValue.bool false)])]].filter
            is_downstream_rec).map
          (augment_record (fun _ => [("has_violation", JValue.bool true)])
            [("citation", JValue.str "CITE")])).length =
      [[("name", JValue.str "a"),
          ("downstream_usage", JValue.obj [("is_downstream", JValue.bool true)])],
         [("name", JValue.str "b"),
          ("downstream_usage", JValue.obj [("is_downstream", JValue.bool false)])]].countP
        is_downstream_rec ∧
    ∀ st st', check_github (fun _ => [("has_violation", JValue.bool true)]) st "BRSET" = .ok st' →
      ∀ name, name ≠ "violations_github_" ++ "BRSET" ++ ".json" → st' name = st name :=
  C3_downstream_filtering (fun _ => [("has_violation", JValue.bool true)])
    [("citation", JValue.str "CITE")]
    [[("name", JValue.str "a"),
      ("downstream_usage", JValue.obj [("is_downstream", JValue.bool true)])],
     [("name", JValue.str "b"),
      ("downstream_usage", JValue.obj [("is_downstream", JValue.bool false)])]]
    "BRSET"
    (by
      intro r hr
      rcases List.mem_cons.mp hr with h | hr
      · subst h; exact ⟨_, rfl⟩
      · rcases List.mem_cons.mp hr with h | hr
        · subst h; exact ⟨_, rfl⟩
        · cases hr)

theorem augment_record_citation (violation : JObj → JObj) (oi r : JObj) :
    ((dict_get r "citation" .null = .null ∨ dict_get r "citation" .null = .str "") →
      dict_get (augment_record violation oi r) "citation" .null =
        dict_get oi "citation" (.str "")) ∧
    (∀ s, s ≠ "" → dict_get r "citation" .null = .str s →
      dict_get (augment_record violation oi r) "citation" .null = .str s) := by
  have hbase : dict_get (dict_set (dict_set r "has_violation"
        (dict_get (violation r) "has_violation" (.bool false))) "violations"
        (dict_get (violation r) "violations" (.arr []))) "citation" .null =
      dict_get r "citation" .null := by
    rw [dict_get_set_ne _ _ _ _ _ (by decide), dict_get_set_ne _ _ _ _ _ (by decide)]
  constructor
  · intro hc
    show dict_get
        (if py_truthy (dict_get (dict_set (dict_set r "has_violation"
            (dict_get (violation r) "has_violation" (.bool false))) "violations"
            (dict_get (violation r) "violations" (.arr []))) "citation" .null) then
          dict_set (dict_set r "has_violation"
            (dict_get (violation r) "has_violation" (.bool false))) "violations"
            (dict_get (violation r) "violations" (.arr []))
        else
          dict_set (dict_set (dict_set r "has_violation"
            (dict_get (violation r) "has_violation" (.bool false))) "violations"
            (dict_get (violation r) "violations" (.arr []))) "citation"
            (dict_get oi "citation" (.str "")))
        "citation" .null = dict_get oi "citation" (.str "")
    have hfalsy : py_truthy (dict_get (dict_set (dict_set r "has_violation"
        (dict_get (violation r) "has_violation" (.bool false))) "violations"
        (dict_get (violation r) "violations" (.arr []))) "citation" .null) = false := by
      rw [hbase]
      rcases hc with hc | hc <;> rw [hc] <;> rfl
    rw [if_neg (by simp [hfalsy])]
    exact dict_get_set_self _ _ _ _
  · intro s hs hc
    show dict_get
        (if py_truthy (dict_get (dict_set (dict_set r "has_violation"
            (dict_get (violation r) "has_violation" (.bool false))) "violations"
            (dict_get (violation r) "violations" (.arr []))) "citation" .null) then
          dict_set (dict_set r "has_violation"
            (dict_get (violation r) "has_violation" (.bool false))) "violations"
            (dict_get (violation r) "violations" (.arr []))
        else
          dict_set (dict_set (dict_set r "has_violation"
            (dict_get (violation r) "has_violation" (.bool false))) "violations"
            (dict_get (violation r) "violations" (.arr []))) "citation"
            (dict_get oi "citation" (.str "")))
        "citation" .null = .str s
    have htruthy : py_truthy (dict_get (dict_set (dict_set r "has_violation"
        (dict_get (violation r) "has_violation" (.bool false))) "violations"
        (dict_get (violation r) "violations" (.arr []))) "citation" .null) = true := by
      rw [hbase, hc]
      cases s with
      | mk data =>
        cases data with
        | nil => exact absurd rfl hs
        | cons c cs => rfl
    rw [if_pos htruthy, hbase, hc]

/-- C7: every record of the compliance-merge output is the augmentation of
a downstream-marked input record; when that input record's citation was
absent or empty, the output citation equals the license profile's
citation, and a record carrying a nonempty citation keeps it unchanged. -/
theorem C7_citation_merge (violation : JObj → JObj) (oi : JObj)
    (records : List JObj)
    (h : ∀ r ∈ records, ∃ f, downstream_flag r = .ok f)
    (out : List JObj)
    (hout : analyze_downstream_usage violation oi records = .ok out) :
    ∀ r' ∈ out, ∃ r, r ∈ records ∧ is_downstream_rec r = true ∧
      r' = augment_record violation oi r ∧
      ((dict_get r "citation" .null = .null ∨ dict_get r "citation" .null = .str "") →
        dict_get r' "citation" .null = dict_get oi "citation" (.str "")) ∧
      ∀ s, s ≠ "" → dict_get r "citation" .null = .str s →
        dict_get r' "citation" .null = .str s := by
  rw [analyze_eq_filter_map violation oi records h] at hout
  injection hout with hout
  subst hout
  intro r' hr'
  obtain ⟨r, hrmem, hreq⟩ := List.mem_map.mp hr'
  obtain ⟨hrrec, hrds⟩ := List.mem_filter.mp hrmem
  subst hreq
  exact ⟨r, hrrec, hrds, rfl, (augment_record_citation violation oi r).1,
    (augment_record_citation violation oi r).2⟩

/-- C7 witness: the one downstream record of a singleton run, instantiated
at the concrete output record: absent citation is filled from the profile,
a nonempty one would be kept. -/
theorem C7_citation_merge_witness :
    ∃ r, r ∈ [[("downstream_usage", JValue.obj [("is_downstream", JValue.bool true)])]] ∧
      is_downstream_rec r = true ∧
      augment_record (fun _ => []) [("citation", JValue.str "CITE")]
          [("downstream_usage", JValue.obj [("is_downstream", JValue.bool true)])] =
        augment_record (fun _ => []) [("citation", JValue.str "CITE")] r ∧
      ((dict_get r "citation" .null = .null ∨ dict_get r "citation" .null = .str "") →
        dict_get (augment_record (fun _ => []) [("citation", JValue.str "CITE")]
            [("downstream_usage", JValue.obj [("is_downstream", JValue.bool true)])])
          "citation" .null =
          dict_get [("citation", JValue.str "CITE")] "citation" (.str "")) ∧
      ∀ s, s ≠ "" → dict_get r "citation" .null = .str s →
        dict_get (augment_record (fun _ => []) [("citation", JValue.str "CITE")]
            [("downstream_usage", JValue.obj [("is_downstream", JValue.bool true)])])
          "citation" .null = .str s :=
  C7_citation_merge (fun _ => []) [("citation", JValue.str "CITE")]
    [[("downstream_usage", JValue.obj [("is_downstream", JValue.bool true)])]]
    (by
      intro r hr
      rcases List.mem_cons.mp hr with h | hr
      · subst h; exact ⟨_, rfl⟩
      · cases hr)
    [augment_record (fun _ => []) [("citation", JValue.str "CITE")]
      [("downstream_usage", JValue.obj [("is_downstream", JValue.bool true)])]]
    rfl
    (augment_record (fun _ => []) [("citation", JValue.str "CITE")]
      [("downstream_usage", JValue.obj [("is_downstream", JValue.bool true)])])
    (List.mem_cons_self _ _)

/-- C1: enrichment conserves the record count for all three sources — the
code-host and hub loops append exactly one output record per input record,
and the competition-catalog pool collects one result per submitted future
(over any completion order) — including empty inputs and runs where every
secondary fetch fails, a failed fetch only nulling the secondary field. -/
theorem C1_record_conservation
    (readme : JValue → Option String) (robust : String → JObj)
    (card : JValue → Option String) (tree : JValue → List String)
    (repos : List JObj) (datasets : List JValue) (order : List Nat)
    (entries : List JObj)
    (hgh : ∀ r ∈ repos, licenseShape r)
    (hperm : order.Perm (List.range datasets.length))
    (hok : ∀ ds ∈ datasets, ∃ o, process_kaggle_dataset_v robust ds = .ok o)
    (hhf : ∀ en ∈ entries, tagsShape en) :
    (∃ out, process_repositories readme repos = .ok out ∧
      out.length = repos.length) ∧
    (∀ r o, process_repository readme r = .ok o →
      readme (dict_get r "full_name" (.str "")) = none →
      dict_get o "readme" .null = .null) ∧
    (gather_kaggle_results robust datasets order).length = datasets.length ∧
    (∃ out, process_datasets card tree entries = .ok out ∧
      out.length = entries.length) := by
  refine ⟨process_repositories_length readme repos hgh, ?_,
    gather_kaggle_results_length robust datasets order hperm hok,
    process_datasets_length card tree entries hhf⟩
  intro r o hro hnone
  unfold process_repository at hro
  cases hlf : licenseField r with
  | error e => rw [hlf] at hro; cases hro
  | ok lic =>
    rw [hlf] at hro
    injection hro with ho
    subst ho
    rw [hnone]
    rfl

/-- C1 witness: one record per source with every secondary fetch failing;
all counts are conserved and the readme field is nulled. -/
theorem C1_record_conservation_witness :
    (∃ out, process_repositories (fun _ => none)
        [[("name", JValue.str "r"), ("full_name", JValue.str "o/r"),
          ("license", JValue.null), ("topics", JValue.arr [])]] = .ok out ∧
      out.length = [[("name", JValue.str "r"), ("full_name", JValue.str "o/r"),
          ("license", JValue.null), ("topics", JValue.arr [])]].length) ∧
    (∀ r o, process_repository (fun _ => none) r = .ok o →
      (fun _ => (none : Option String)) (dict_get r "full_name" (.str "")) = none →
      dict_get o "readme" .null = .null) ∧
    (gather_kaggle_results (fun _ => []) [.obj [("ref", JValue.str "u/d")]]
        [0]).length = [JValue.obj [("ref", JValue.str "u/d")]].length ∧
    (∃ out, process_datasets (fun _ => none) (fun _ => [])
        [[("id", JValue.str "d1"), ("tags", JValue.arr [JValue.str "license:mit"])]] =
        .ok out ∧
      out.length = [[("id", JValue.str "d1"),
          ("tags", JValue.arr [JValue.str "license:mit"])]].length) :=
  C1_record_conservation (fun _ => none) (fun _ => []) (fun _ => none) (fun _ => [])
    [[("name", JValue.str "r"), ("full_name", JValue.str "o/r"),
      ("license", JValue.null), ("topics", JValue.arr [])]]
    [.obj [("ref", JValue.str "u/d")]] [0]
    [[("id", JValue.str "d1"), ("tags", JValue.arr [JValue.str "license:mit"])]]
    (by
      intro r hr
      rcases List.mem_cons.mp hr with h | hr
      · subst h; exact Or.inl rfl
      · cases hr)
    (by decide)
    (by
      intro ds hds
      rcases List.mem_cons.mp hds with h | hds
      · subst h; exact ⟨_, rfl⟩
      · cases hds)
    (by
      intro en hen
      rcases List.mem_cons.mp hen with h | hen
      · subst h
        exact ⟨[JValue.str "license:mit"], rfl, by
          intro t ht
          rcases List.mem_cons.mp ht with h | ht
          · subst h; exact ⟨_, rfl⟩
          · cases ht⟩
      · cases hen)

/-- C5: with unchanged input artifacts and deterministic mocked
dependencies, running the competition-catalog enrichment stage or the
code-host classification stage a second time reproduces the same store:
each run fully replaces its output artifact rather than appending. -/
theorem C5_stage_idempotence (robust : String → JObj)
    (sched : List JValue → List Nat) (classify : JObj → JValue)
    (st : Store) (inf outf : String) (hne : inf ≠ outf) :
    (∀ st1, process_kaggle_datasets_file robust sched st inf outf = .ok st1 →
      process_kaggle_datasets_file robust sched st1 inf outf = .ok st1) ∧
    (∀ st1, process_repos_file classify st inf outf = .ok st1 →
      process_repos_file classify st1 inf outf = .ok st1) := by
  constructor
  · intro st1 h1
    unfold process_kaggle_datasets_file at h1 ⊢
    cases hinf : st inf with
    | none =>
      rw [hinf] at h1
      injection h1 with h1
      subst h1
      rw [hinf]
    | some v =>
      rw [hinf] at h1
      cases v with
      | arr datasets =>
        injection h1 with h1
        subst h1
        rw [store_set_other st _ inf _ hne, hinf]
        show Except.ok (store_set (store_set st outf
            (JValue.arr (List.map JValue.obj
              (gather_kaggle_results robust datasets (sched datasets))))) outf
            (JValue.arr (List.map JValue.obj
              (gather_kaggle_results robust datasets (sched datasets))))) =
          Except.ok (store_set st outf
            (JValue.arr (List.map JValue.obj
              (gather_kaggle_results robust datasets (sched datasets)))))
        rw [store_set_idem]
      | null => cases h1
      | bool b => cases h1
      | num n => cases h1
      | str s => cases h1
      | obj kvs => cases h1
  · intro st1 h1
    unfold process_repos_file at h1 ⊢
    cases hinf : st inf with
    | none =>
      rw [hinf] at h1
      injection h1 with h1
      subst h1
      rw [hinf]
    | some v =>
      rw [hinf] at h1
      cases v with
      | arr items =>
        replace h1 : (match asObjList items with
            | Except.error e => (Except.error e : Except String Store)
            | Except.ok repos =>
              Except.ok (store_set st outf
                (.arr ((repos.map
                  (fun r => dict_set r "downstream_usage" (classify r))).map
                    JValue.obj)))) = Except.ok st1 := h1
        cases hobj : asObjList items with
        | error e => rw [hobj] at h1; cases h1
        | ok repos =>
          rw [hobj] at h1
          injection h1 with h1
          subst h1
          rw [store_set_other st _ inf _ hne, hinf]
          show (match asObjList items with
              | Except.error e => (Except.error e : Except String Store)
              | Except.ok rp =>
                Except.ok (store_set (store_set st outf
                  (.arr ((repos.map
                    (fun r => dict_set r "downstream_usage" (classify r))).map
                      JValue.obj))) outf
                  (.arr ((rp.map
                    (fun r => dict_set r "downstream_usage" (classify r))).map
                      JValue.obj)))) =
            Except.ok (store_set st outf
              (.arr ((repos.map
                (fun r => dict_set r "downstream_usage" (classify r))).map
                  JValue.obj)))
          rw [hobj]
          show Except.ok (store_set (store_set st outf
              (.arr ((repos.map
                (fun r => dict_set r "downstream_usage" (classify r))).map
                  JValue.obj))) outf
              (.arr ((repos.map
                (fun r => dict_set r "downstream_usage" (classify r))).map
                  JValue.obj))) =
            Except.ok (store_set st outf
              (.arr ((repos.map
                (fun r => dict_set r "downstream_usage" (classify r))).map
                  JValue.obj)))
          rw [store_set_idem]
      | null => cases h1
      | bool b => cases h1
      | num n => cases h1
      | str s => cases h1
      | obj kvs => cases h1

/-- C5 witness: a concrete store with one input artifact; the second run
reproduces the first run's store exactly. -/
theorem C5_stage_idempotence_witness :
    process_kaggle_datasets_file (fun _ => []) (fun l => List.range l.length)
        (store_set (store_set empty_store "kaggle_datasets_BRSET.json"
          (JValue.arr [])) "processed_kaggle_BRSET.json" (JValue.arr []))
        "kaggle_datasets_BRSET.json" "processed_kaggle_BRSET.json" =
      .ok (store_set (store_set empty_store "kaggle_datasets_BRSET.json"
          (JValue.arr [])) "processed_kaggle_BRSET.json" (JValue.arr [])) ∧
    process_repos_file (fun _ => .obj [])
        (store_set (store_set empty_store "processed_github_repos_BRSET.json"
          (JValue.arr [])) "final_processed_repos_BRSET.json" (JValue.arr []))
        "processed_github_repos_BRSET.json" "final_processed_repos_BRSET.json" =
      .ok (store_set (store_set empty_store "processed_github_repos_BRSET.json"
          (JValue.arr [])) "final_processed_repos_BRSET.json" (JValue.arr [])) :=
  ⟨(C5_stage_idempotence (fun _ => []) (fun l => List.range l.length)
      (fun _ => .obj [])
      (store_set empty_store "kaggle_datasets_BRSET.json" (JValue.arr []))
      "kaggle_datasets_BRSET.json" "processed_kaggle_BRSET.json"
      (by decide)).1
    (store_set (store_set empty_store "kaggle_datasets_BRSET.json"
      (JValue.arr [])) "processed_kaggle_BRSET.json" (JValue.arr []))
    rfl,
   (C5_stage_idempotence (fun _ => []) (fun l => List.range l.length)
      (fun _ => .obj [])
      (store_set empty_store "processed_github_repos_BRSET.json" (JValue.arr []))
      "processed_github_repos_BRSET.json" "final_processed_repos_BRSET.json"
      (by decide)).2
    (store_set (store_set empty_store "processed_github_repos_BRSET.json"
      (JValue.arr [])) "final_processed_repos_BRSET.json" (JValue.arr []))
    rfl⟩
